import Mathlib

/-!
Shallow embedding of the doltpy CLI wrapper (doltpy/cli/dolt.py,
doltpy/cli/write/write.py, doltpy/etl/loaders.py).

The external `dolt` binary is out of scope: functions that invoke it are
modelled by (a) the pure output-parsing logic, translated line by line from
the source, over an arbitrary list of output lines, and (b) an explicit
trace of the argument vectors the function would hand to the process
executor, so that "a process was spawned" is observable.  Exceptions are
modelled with `Except`; where intermediate mutations must survive an
exception (the ETL loader), state is threaded explicitly and returned next
to the `Except` result.

Python's `str.split()` (split on whitespace runs) is modelled as splitting
on the space character and dropping empty pieces, and `str.lstrip()` as
`String.trimLeft`; the inputs of interest contain no other whitespace.
-/

namespace Doltpy

/-! Character-level string primitives.  The Lean core `String` functions
(`splitOn`, `startsWith`, `trimLeft`, …) are defined by well-founded
recursion on byte positions and therefore do not reduce inside the
kernel, so the Python string operations the parsers rely on are given
structurally over `List Char` and strings cross the boundary via
`String.toList`/`List.asString`. -/

/-- Python's notion of whitespace for `split()`/`lstrip()`. -/
def isWS (c : Char) : Bool :=
  c == ' ' || c == '\t' || c == '\n' || c == '\r'

/-- Python `s.lstrip()`. -/
def chTrimLeft (l : List Char) : List Char := l.dropWhile isWS

/-- Python `s.startswith(pat)`. -/
def chStartsWith (l pat : List Char) : Bool := List.isPrefixOf pat l

/-- Python's substring test `pat in s`. -/
def chContains (s pat : List Char) : Bool :=
  (List.range (s.length + 1)).any
    (fun i => (s.drop i).take pat.length = pat)

/-- Worker for `chSplitWS`, accumulating the current field reversed. -/
def chSplitWSGo : List Char → List Char → List (List Char)
  | [], cur => if cur.isEmpty then [] else [cur.reverse]
  | c :: rest, cur =>
    if isWS c then
      if cur.isEmpty then chSplitWSGo rest []
      else cur.reverse :: chSplitWSGo rest []
    else chSplitWSGo rest (c :: cur)

/-- Python `s.split()`: split on whitespace runs, dropping empty fields. -/
def chSplitWS (l : List Char) : List (List Char) := chSplitWSGo l []

/-- Worker for `chSplitOnChar`. -/
def chSplitOnCharGo (sep : Char) : List Char → List Char → List (List Char)
  | [], cur => [cur.reverse]
  | c :: rest, cur =>
    if c == sep then cur.reverse :: chSplitOnCharGo sep rest []
    else chSplitOnCharGo sep rest (c :: cur)

/-- Python `s.split(sep)` for a one-character separator, keeping empty
fields. -/
def chSplitOnChar (sep : Char) (l : List Char) : List (List Char) :=
  chSplitOnCharGo sep l []

/-- Python `"\n".join(lines)`. -/
def joinLines (ls : List (List Char)) : List Char :=
  (ls.intersperse ['\n']).flatten

/-- `DoltStatus` from dolt.py: is_clean flag plus the two table → staged
maps.  Python dicts are modelled as insertion-ordered association lists. -/
structure DoltStatus where
  is_clean : Bool
  modified_tables : List (String × Bool)
  added_tables : List (String × Bool)
deriving Repr, DecidableEq

/-- Assignment `d[k] = v` into an insertion-ordered dict. -/
def dictSet (d : List (String × Bool)) (k : String) (v : Bool) :
    List (String × Bool) :=
  if d.any (fun p => p.1 = k) then
    d.map (fun p => if p.1 = k then (k, v) else p)
  else d ++ [(k, v)]

/-- The `for line in output` loop of `Dolt.status` (dolt.py 340-354):
tracks the `staged` section flag and fills the two dicts.  `IndexError`
(a `modified`/`new table` line with no `:`) is an error. -/
def statusLoop : List String → Bool → List (String × Bool) →
    List (String × Bool) → Except String (List (String × Bool) × List (String × Bool))
  | [], _, changes, newTables => .ok (changes, newTables)
  | line :: rest, staged, changes, newTables =>
    let l := chTrimLeft line.toList
    if chStartsWith l "Changes to be committed".toList then
      statusLoop rest true changes newTables
    else if chStartsWith l "Changes not staged for commit".toList then
      statusLoop rest false changes newTables
    else if chStartsWith l "Untracked files".toList then
      statusLoop rest false changes newTables
    else if chStartsWith l "modified".toList then
      match (chSplitOnChar ':' l).get? 1 with
      | some name =>
        statusLoop rest staged (dictSet changes (chTrimLeft name).asString staged) newTables
      | none => .error "IndexError"
    else if chStartsWith l "new table".toList then
      match (chSplitOnChar ':' l).get? 1 with
      | some name =>
        statusLoop rest staged changes (dictSet newTables (chTrimLeft name).asString staged)
      | none => .error "IndexError"
    else
      statusLoop rest staged changes newTables

/-- `Dolt.status` (dolt.py 327-356) applied to the captured output lines:
if `"clean"` occurs in the joined output the status is clean with empty
maps, otherwise the section loop runs and `is_clean` is `false`. -/
def status (output : List String) : Except String DoltStatus :=
  if chContains (joinLines (output.map String.toList)) "clean".toList then
    .ok ⟨true, [], []⟩
  else
    match statusLoop output false [] [] with
    | .ok (changes, newTables) => .ok ⟨false, changes, newTables⟩
    | .error e => .error e

/-- `DoltBranch` from dolt.py: a name and the commit it points to. -/
structure DoltBranch where
  name : String
  commit_id : String
deriving Repr, DecidableEq

/-- The parsing loop of `Dolt._get_branches` (dolt.py 711-723): stops at
the first empty line, a `*`-prefixed line becomes the active branch (each
such line overwrites the previous active branch) and every parsed line is
appended to the branch list.  A line with fewer than two fields is an
`IndexError`. -/
def getBranchesLoop : List String → List DoltBranch → Option DoltBranch →
    Except String (Option DoltBranch × List DoltBranch)
  | [], branches, active => .ok (active, branches)
  | line :: rest, branches, active =>
    if line.toList.isEmpty then .ok (active, branches)
    else if chStartsWith line.toList ['*'] then
      match chSplitWS ((chTrimLeft line.toList).drop 1) with
      | b :: c :: _ =>
        getBranchesLoop rest (branches ++ [⟨b.asString, c.asString⟩])
          (some ⟨b.asString, c.asString⟩)
      | _ => .error "IndexError"
    else
      match chSplitWS (chTrimLeft line.toList) with
      | b :: c :: _ =>
        getBranchesLoop rest (branches ++ [⟨b.asString, c.asString⟩]) active
      | _ => .error "IndexError"

/-- `Dolt._get_branches` (dolt.py 708-728) applied to the captured output
of `branch --list --verbose`: runs the loop and fails with
`DoltException("Failed to set active branch")` when no active branch was
seen. -/
def getBranches (output : List String) :
    Except String (DoltBranch × List DoltBranch) :=
  match getBranchesLoop output [] none with
  | .ok (some active, branches) => .ok (active, branches)
  | .ok (none, _) => .error "Failed to set active branch"
  | .error e => .error e

/-- The `parent_or_parents` field of `DoltCommit` (dolt.py 121): Python's
`None`, a single parent string, or a merge pair `(first, second)`.  The
second pair component is an `Option` because `append_merge_parent` stores
the raw `parent_hash` row value, which can itself be null. -/
inductive Parents where
  | nil : Parents
  | single (p : String) : Parents
  | pair (a : String) (b : Option String) : Parents
deriving Repr, DecidableEq

/-- `DoltCommit` from dolt.py (fields 116-121); the timestamp is kept as
the opaque row value. -/
structure DoltCommit where
  ref : String
  ts : String
  author : String
  email : String
  message : String
  parent_or_parents : Parents
deriving Repr, DecidableEq

/-- One row of the log table query: `commit_hash`, nullable `parent_hash`
(LEFT OUTER JOIN), `committer`, `email`, `date`, `message`. -/
structure LogRow where
  commit_hash : String
  parent_hash : Option String
  committer : String
  email : String
  date : String
  message : String
deriving Repr, DecidableEq

/-- `DoltCommit.append_merge_parent` (dolt.py 129-135): a commit that
already holds a pair raises `ValueError`; a falsy parent (`None` or the
empty string) only logs a warning and leaves the commit unchanged;
otherwise the single parent is extended into a pair. -/
def appendMergeParent (c : DoltCommit) (other : Option String) :
    Except String DoltCommit :=
  match c.parent_or_parents with
  | .pair _ _ => .error "Already has a merge parent set"
  | .nil => .ok c
  | .single p =>
    if p = "" then .ok c
    else .ok { c with parent_or_parents := .pair p other }

/-- The `DoltCommit` built for a first-seen row (dolt.py 171-179). -/
def mkLogCommit (r : LogRow) : DoltCommit :=
  { ref := r.commit_hash, ts := r.date, author := r.committer,
    email := r.email, message := r.message,
    parent_or_parents :=
      match r.parent_hash with
      | none => .nil
      | some p => .single p }

/-- The row loop of `DoltCommit.parse_dolt_log_table` (dolt.py 164-181);
the `OrderedDict` is an insertion-ordered list of commits keyed by `ref`.
A repeated `commit_hash` updates the existing record in place via
`append_merge_parent`; a fresh one is appended. -/
def parseDoltLogTableGo : List LogRow → List DoltCommit →
    Except String (List DoltCommit)
  | [], acc => .ok acc
  | r :: rest, acc =>
    match acc.find? (fun c => c.ref = r.commit_hash) with
    | some c =>
      match appendMergeParent c r.parent_hash with
      | .error e => .error e
      | .ok c' =>
        parseDoltLogTableGo rest
          (acc.map (fun x => if x.ref = r.commit_hash then c' else x))
    | none => parseDoltLogTableGo rest (acc ++ [mkLogCommit r])

/-- `DoltCommit.parse_dolt_log_table` (dolt.py 163-181). -/
def parseDoltLogTable (rows : List LogRow) : Except String (List DoltCommit) :=
  parseDoltLogTableGo rows []

/-- First-seen deduplication of a list of ids, relative to ids already
seen: the order in which fresh keys enter the `OrderedDict`. -/
def firstSeenFrom (seen : List String) : List String → List String
  | [] => []
  | x :: xs =>
    if x ∈ seen then firstSeenFrom seen xs
    else x :: firstSeenFrom (x :: seen) xs

/-- `_apply_df_transformers` (loaders.py 22-30): an empty/None transformer
list returns the data unchanged; otherwise `temp` starts as a copy of the
data and each loop iteration rebinds `temp := transformer(data)` — the
*original* `data`, not the previous `temp`. -/
def applyDfTransformers {α : Type} (data : α) (transformers : List (α → α)) : α :=
  if transformers.isEmpty then data
  else transformers.foldl (fun _temp t => t data) data

/-- The import-mode constants of write.py 16. -/
def CREATE : String := "create"
def FORCE_CREATE : String := "force_create"
def REPLACE : String := "replace"
def UPDATE : String := "update"

/-- `IMPORT_MODES_TO_FLAGS` (write.py 17-22), as the lookup it is used
for in `_import_helper`. -/
def importModesToFlags (mode : String) : List String :=
  if mode = CREATE then ["-c"]
  else if mode = FORCE_CREATE then ["-f", "-c"]
  else if mode = REPLACE then ["-r"]
  else if mode = UPDATE then ["-u"]
  else []

/-- The valid import modes, `IMPORT_MODES_TO_FLAGS.keys()`. -/
def importModes : List String := [CREATE, FORCE_CREATE, REPLACE, UPDATE]

/-- `_get_import_mode_and_flags` (write.py 224-236).  `lsNames` stands for
the table names `dolt.ls()` reports.  An invalid supplied mode raises
`ValueError`; in *every* other case — including a validly supplied mode —
the `else` branch runs and the mode is re-derived from the table listing:
`update` when the table is present, `create` when absent. -/
def getImportModeAndFlags (lsNames : List String) (table : String)
    (importMode : Option String) : Except String String :=
  match importMode with
  | some m =>
    -- `if import_mode and import_mode not in import_modes`: the empty
    -- string is falsy in Python, so it skips the validity check too.
    if m ≠ "" ∧ m ∉ importModes then
      .error "update_mode must be one of the import modes"
    else .ok (if table ∈ lsNames then UPDATE else CREATE)
  | none => .ok (if table ∈ lsNames then UPDATE else CREATE)

/-- Python truthiness of an optional string: `None` and `""` are falsy. -/
def optTruthy : Option String → Bool
  | none => false
  | some s => s ≠ ""

/-- How `write_import_file` (the per-writer staging callback handed to
`_import_helper`) can behave: complete normally, raise before the staging
file was created, or raise after creating it. -/
inductive WriterOutcome where
  | ok : WriterOutcome
  | failNoFile : WriterOutcome
  | failWithFile : WriterOutcome
deriving Repr, DecidableEq

/-- Observable outcome of `_import_helper`: the argument vectors handed to
the process executor in order, whether the temporary staging file still
exists after the call, and the normal/exceptional result. -/
structure ImportResult where
  trace : List (List String)
  fileExists : Bool
  result : Except String Unit
deriving Repr

/-- The model name standing for `tempfile.mktemp(suffix=".csv")`. -/
def stagingName : String := "staging.csv"

/-- `_import_helper` (write.py 192-221).  `lsNames` is the table listing
`dolt.ls()` reports; `execFails`/`addFails`/`commitFails` say whether the
respective external invocations fail.  The `try` body stages the file,
runs `table import`, and optionally `add` (which itself re-runs `status`)
plus `commit`; the `finally` clause removes the staging file whenever it
exists, on normal and exceptional exits alike. -/
def importHelper (lsNames : List String) (table : String)
    (writer : WriterOutcome) (importMode : Option String)
    (primaryKey : List String) (commit : Bool)
    (commitMessage : Option String) (commitDate : Option String)
    (execFails addFails commitFails : Bool) : ImportResult :=
  match getImportModeAndFlags lsNames table importMode with
  | .error e => ⟨[], false, .error e⟩
  | .ok mode =>
    let flags := importModesToFlags mode
    let body : List (List String) × Bool × Except String Unit :=
      match writer with
      | .failNoFile => ([], false, .error "write_import_file raised")
      | .failWithFile => ([], true, .error "write_import_file raised")
      | .ok =>
        let args := ["table", "import", table] ++ flags ++
          (if primaryKey ≠ [] then
            ["--pk=" ++ String.intercalate "," primaryKey] else [])
        let trace := [args ++ [stagingName]]
        if execFails then (trace, true, .error "ProcessFailure")
        else if commit then
          let msg := commitMessage.getD
            s!"Committing write to table {table} in {mode} mode"
          if addFails then
            (trace ++ [["add", table]], true, .error "ProcessFailure")
          else
            let trace := trace ++ [["add", table], ["status"]]
            let commitCmd := ["commit", "-m", msg] ++
              (match commitDate with
               | some d => ["--date", d]
               | none => [])
            if commitFails then
              (trace ++ [commitCmd], true, .error "ProcessFailure")
            else (trace ++ [commitCmd], true, .ok ())
        else (trace, true, .ok ())
    -- finally: if os.path.exists(fname): os.remove(fname)
    ⟨body.1, if body.2.1 then false else body.2.1, body.2.2⟩

/-- Argument vector of `Dolt._get_branches`. -/
def branchListArgs : List String := ["branch", "--list", "--verbose"]

/-- Argument vector of `Dolt.status`. -/
def statusArgs : List String := ["status"]

/-- Argument vector of the merge command (dolt.py 436-441). -/
def mergeCmdArgs (squash : Bool) (branch : String) : List String :=
  ["merge"] ++ (if squash then ["--squash"] else []) ++ [branch]

/-- Argument vector of the merge-abort command (dolt.py 457). -/
def mergeAbortArgs : List String := ["merge", "--abort"]

/-- Argument vector of `Dolt.add` for one table. -/
def addCmdArgs (table : String) : List String := ["add", table]

/-- Argument vector of `Dolt.commit` with a plain message. -/
def commitCmdArgs (message : String) : List String := ["commit", "-m", message]

/-- The external facts `Dolt.merge` consumes, each the parsed result of a
sub-call it performs: the branch listing (`_get_branches`), the
precondition `status()`, the captured output of the merge command, and
the `status()` taken on the three-way-merge path. -/
structure MergeEnv where
  active : DoltBranch
  branches : List DoltBranch
  statusBefore : DoltStatus
  mergeOutput : List String
  statusAfter : DoltStatus
deriving Repr, DecidableEq

/-- `Dolt.merge` (dolt.py 419-467), returning the spawned-process trace
and the normal/exceptional result.  `_get_branches` and the precondition
`status()` spawn their processes *before* the two precondition checks;
then the merge command runs and its output is classified: exactly 3 lines
with `Fast-forward` in line 1 → done; exactly 5 lines with line 2 starting
with `CONFLICT` → merge-abort and return; anything else → stage every
added/modified table from a fresh status and commit. -/
def merge (env : MergeEnv) (branch message : String) (squash : Bool) :
    List (List String) × Except String Unit :=
  let trace := [branchListArgs, statusArgs]
  if env.statusBefore.is_clean = false then
    (trace, .error s!"Changes in the working set, please commit before merging {branch} to {env.active.name}")
  else if branch ∉ env.branches.map (fun b => b.name) then
    (trace, .error s!"Trying to merge in non-existent branch {branch} to {env.active.name}")
  else
    let trace := trace ++ [mergeCmdArgs squash branch]
    let output := env.mergeOutput
    if output.length = 3 ∧ chContains (output.getD 1 "").toList "Fast-forward".toList then
      (trace, .ok ())
    else if output.length = 5 ∧ chStartsWith (output.getD 2 "").toList "CONFLICT".toList then
      (trace ++ [mergeAbortArgs], .ok ())
    else
      let trace := trace ++ [statusArgs]
      let tables := env.statusAfter.added_tables.map Prod.fst ++
        env.statusAfter.modified_tables.map Prod.fst
      let trace := trace ++ (tables.map (fun t => [addCmdArgs t, statusArgs])).flatten
      (trace ++ [commitCmdArgs message], .ok ())

/-- `Dolt.schema_import` (dolt.py 1228-1295): the mutual-exclusion check
on `create`/`update`/`replace` and the missing-pks checks all happen while
building the argument vector, before the single process execution, so a
failing check yields an empty trace.  The source appends the pks checks
inside the `--create`/`--replace` branches; observable behaviour (trace
and raised error) is identical. -/
def schemaImport (create update replace dry_run keep_types : Bool)
    (file_type : Option String) (pks : List String) (mapFile : Option String)
    (floatThreshold : Option String) (delim : Option String)
    (table filename : String) : List (List String) × Except String Unit :=
  let switchCount := [create, update, replace].count true
  if switchCount ≠ 1 then
    ([], .error "Exactly one of create, update, replace must be True")
  else if create ∧ pks = [] then
    ([], .error "When create is set to True, pks must be provided")
  else if replace ∧ pks = [] then
    ([], .error "When replace is set to True, pks must be provided")
  else
    let args := ["schema", "import"]
      ++ (if create then ["--create"] else [])
      ++ (if update then ["--update"] else [])
      ++ (if replace then ["--replace"] else [])
      ++ (if dry_run then ["--dry-run"] else [])
      ++ (if keep_types then ["--keep-types"] else [])
      ++ (match file_type with | some ft => ["--file_type", ft] | none => [])
      ++ (if pks ≠ [] then ["--pks", String.intercalate "," pks] else [])
      ++ (match mapFile with | some m => ["--map", m] | none => [])
      ++ (match floatThreshold with | some f => ["--float-threshold", f] | none => [])
      ++ (match delim with | some d => ["--delim", d] | none => [])
      ++ [table, filename]
    ([args], .ok ())

/-- `Dolt.table_import` (dolt.py 1322-1382), with the same convention as
`schemaImport`: all `ValueError`s precede the single process execution. -/
def tableImport (create_table update_table force : Bool)
    (mapping_file : Option String) (pk : List String) (replace_table : Bool)
    (file_type : Option String) (continue_importing : Bool)
    (delim : Option String) (table filename : String) :
    List (List String) × Except String Unit :=
  let switchCount := [create_table, update_table, replace_table].count true
  if switchCount ≠ 1 then
    ([], .error "Exactly one of create, update, replace must be True")
  else if create_table ∧ pk = [] then
    ([], .error "When create is set to True, pks must be provided")
  else if replace_table ∧ pk = [] then
    ([], .error "When replace is set to True, pks must be provided")
  else
    let args := ["table", "import"]
      ++ (if create_table then ["--create-table"] else [])
      ++ (if update_table then ["--update-table"] else [])
      ++ (if replace_table then ["--replace-table"] else [])
      ++ (match file_type with | some ft => ["--file-type", ft] | none => [])
      ++ (if pk ≠ [] then ["--pk", String.intercalate "," pk] else [])
      ++ (match mapping_file with | some m => ["--map", m] | none => [])
      ++ (match delim with | some d => ["--delim", d] | none => [])
      ++ (if continue_importing then ["--continue"] else [])
      ++ (if force then ["--force"] else [])
      ++ [table, filename]
    ([args], .ok ())

/-- `Dolt.branch` (dolt.py 630-706), returning the spawned-process trace
and the result; the parsing of the final `_get_branches` listing is
modelled separately by `getBranches`, so the result type carries no
branch data.  The mutual-exclusion check on `delete`/`copy`/`move` comes
first, before any execution. -/
def branchCmd (branch_name start_point new_branch : Option String)
    (force delete copy move : Bool) : List (List String) × Except String Unit :=
  let switchCount := [delete, copy, move].count true
  if switchCount > 1 then
    ([], .error "At most one of delete, copy, move can be set to True")
  else if ¬(optTruthy branch_name ∨ delete ∨ copy ∨ move) then
    if force then
      ([], .error "force is not valid without providing a new branch name, or copy, move, or delete being true")
    else ([branchListArgs], .ok ())
  else
    let args := ["branch"] ++ (if force then ["--force"] else [])
    if optTruthy branch_name ∧ ¬(delete ∨ copy ∨ move) then
      let args := args ++ [branch_name.getD ""] ++
        (if optTruthy start_point then [start_point.getD ""] else [])
      ([args, branchListArgs], .ok ())
    else if copy then
      if ¬ optTruthy new_branch then
        ([], .error "must provide new_branch when copying a branch")
      else
        let args := args ++ ["--copy"] ++
          (if optTruthy branch_name then [branch_name.getD ""] else []) ++
          [new_branch.getD ""]
        ([args, branchListArgs], .ok ())
    else if delete then
      if ¬ optTruthy branch_name then
        ([], .error "must provide branch_name when deleting")
      else
        ([args ++ ["--delete", branch_name.getD ""], branchListArgs], .ok ())
    else if move then
      if ¬ optTruthy new_branch then
        ([], .error "must provide new_branch when moving a branch")
      else
        let args := args ++ ["--move"] ++
          (if optTruthy branch_name then [branch_name.getD ""] else []) ++
          [new_branch.getD ""]
        ([args, branchListArgs], .ok ())
    else
      ([branchListArgs], .ok ())

/-- The repository state the ETL loader manipulates through the `Dolt`
handle: the branch list, the active branch, working-set cleanliness, a
flag saying whether the next `commit` invocation fails, and a count of
commits made.  Only what `get_dolt_loader` observes or mutates is kept. -/
structure LoaderState where
  branches : List String
  active : String
  clean : Bool
  commitFails : Bool
  commits : Nat
deriving Repr, DecidableEq

/-- A `DoltTableWriter`: mutates the repository and either returns the
table name it wrote or raises.  Mutations made before a raise survive it,
so the state is returned next to the `Except` result. -/
abbrev LoaderWriter := LoaderState → LoaderState × Except String String

/-- The list comprehension `[writer(dolt) for writer in to_list(...)]`
(loaders.py 178): writers run in sequence, the first exception propagates
and earlier writers' effects are kept. -/
def runWriters : List LoaderWriter → LoaderState →
    LoaderState × Except String (List String)
  | [], st => (st, .ok [])
  | w :: ws, st =>
    match w st with
    | (st', .error e) => (st', .error e)
    | (st', .ok t) =>
      match runWriters ws st' with
      | (st'', .error e) => (st'', .error e)
      | (st'', .ok ts) => (st'', .ok (t :: ts))

/-- The branch-switching step of the loader (loaders.py 168-173): when the
target branch is not the active one, create it if absent and check it
out. -/
def checkoutStep (branch : String) (st : LoaderState) : LoaderState :=
  if st.active ≠ branch then
    let st' :=
      if branch ∈ st.branches then st
      else { st with branches := st.branches ++ [branch] }
    { st' with active := branch }
  else st

/-- The conditional-commit step of the loader (loaders.py 180-188): when
`commit` is set and the working set is dirty, stage the touched tables and
commit (the commit makes the working set clean, or raises when the
external commit invocation fails); a clean working set only logs a
warning. -/
def commitStep (commit : Bool) (st : LoaderState) :
    LoaderState × Except String Unit :=
  if commit then
    if st.clean = false then
      if st.commitFails then (st, .error "ProcessFailure")
      else ({ st with clean := true, commits := st.commits + 1 }, .ok ())
    else (st, .ok ())
  else (st, .ok ())

/-- The restoration step of the loader (loaders.py 190-197): re-read the
active branch and check the original back out when it differs. -/
def restoreBranch (original : String) (st : LoaderState) : LoaderState :=
  if original ≠ st.active then { st with active := original } else st

/-- The `inner` closure returned by `get_dolt_loader` (loaders.py
161-199): fail fast on a non-commit cross-branch write, switch branches,
reject `transaction_mode`, run the writers, conditionally commit, and —
only on the path that completes normally — restore the original branch.
No `try`/`finally` protects the restoration: an exception from a writer or
from the commit propagates immediately with the state as it then is. -/
def getDoltLoaderInner (writers : List LoaderWriter) (commit : Bool)
    (message branch : String) (transactionMode : Bool) (st : LoaderState) :
    LoaderState × Except String String :=
  let original := st.active
  if branch ≠ original ∧ commit = false then
    (st, .error "If writes are to another branch, and commit is not True, writes will be lost")
  else
    let st1 := checkoutStep branch st
    if transactionMode then
      (st1, .error "transaction_mode is not yet implemented")
    else
      match runWriters writers st1 with
      | (st2, .error e) => (st2, .error e)
      | (st2, .ok _tables) =>
        match commitStep commit st2 with
        | (st3, .error e) => (st3, .error e)
        | (st3, .ok _) => (restoreBranch original st3, .ok branch)

/-- The invariant claimed for every `DoltStatus`: clean iff both maps are
empty. -/
def statusInvariant (s : DoltStatus) : Prop :=
  s.is_clean = true ↔ (s.modified_tables = [] ∧ s.added_tables = [])

/-- A merge environment whose merge-command output contains a `CONFLICT`
line but is 4 lines long, with the marker at index 1 (the source only
recognizes 5-line outputs with the marker at index 2). -/
def mergeConflictMidEnv : MergeEnv :=
  { active := ⟨"master", "h0"⟩,
    branches := [⟨"master", "h0"⟩, ⟨"feature", "h1"⟩],
    statusBefore := ⟨true, [], []⟩,
    mergeOutput := ["", "CONFLICT (content): merge conflict in t", "", ""],
    statusAfter := ⟨false, [("t", false)], []⟩ }

/-- A merge environment with a dirty working set. -/
def dirtyMergeEnv : MergeEnv :=
  { active := ⟨"master", "h0"⟩,
    branches := [⟨"master", "h0"⟩, ⟨"feature", "h1"⟩],
    statusBefore := ⟨false, [("t", false)], []⟩,
    mergeOutput := [],
    statusAfter := ⟨true, [], []⟩ }

/-- A loader run in which the single writer raises: commit requested,
target branch `feature`, starting on `master` with a clean working set. -/
def loaderWriterFailRun : LoaderState × Except String String :=
  getDoltLoaderInner [fun st => (st, Except.error "writer raised")] true
    "msg" "feature" false ⟨["master"], "master", true, false, 0⟩

set_option maxRecDepth 8000

/-- C7, counterexample.  The status output `["On branch master"]` carries
no change marker and no `clean` sentinel; `status` then returns
`is_clean = false` with both mappings empty, so the produced `DoltStatus`
violates the claimed invariant `is_clean ⇔ both mappings empty`, and the
claim "for all status outputs containing no change markers, status()
returns is_clean = true" fails on it. -/
theorem status_invariant_counterexample :
    status ["On branch master"] = Except.ok ⟨false, [], []⟩ ∧
    ¬ statusInvariant ⟨false, [], []⟩ := by
  refine ⟨rfl, ?_⟩
  intro hinv
  simp [statusInvariant] at hinv

/-- C7, amended.  For every `DoltStatus` that `status()` produces,
`is_clean = true` implies both mappings are empty, and `is_clean` is true
exactly when the output contains the `clean` sentinel substring — an
output with no change markers but no `clean` sentinel yields
`is_clean = false` with both mappings empty. -/
theorem status_clean_sentinel (output : List String) (s : DoltStatus)
    (h : status output = Except.ok s) :
    (s.is_clean = true → s.modified_tables = [] ∧ s.added_tables = []) ∧
    (s.is_clean = true ↔
      chContains (joinLines (output.map String.toList)) "clean".toList = true) := by
  unfold status at h
  split at h
  case isTrue hc =>
    have hs : s = ⟨true, [], []⟩ := by
      injection h with h'
      exact h'.symm
    subst hs
    exact ⟨fun _ => ⟨rfl, rfl⟩, ⟨fun _ => hc, fun _ => rfl⟩⟩
  case isFalse hc =>
    cases hst : statusLoop output false [] [] with
    | ok p =>
      obtain ⟨changes, newTables⟩ := p
      rw [hst] at h
      have hs : s = ⟨false, changes, newTables⟩ := by
        injection h with h'
        exact h'.symm
      subst hs
      refine ⟨fun hfalse => (Bool.false_ne_true hfalse).elim, ?_⟩
      exact ⟨fun hfalse => (Bool.false_ne_true hfalse).elim, fun hcc => (hc hcc).elim⟩
    | error e => rw [hst] at h; cases h

/-- C7, witness for `status_clean_sentinel` at the output
`["nothing to commit, working tree clean"]`, which parses to the clean
status with both mappings empty. -/
theorem status_clean_sentinel_witness :
    (DoltStatus.is_clean ⟨true, [], []⟩ = true →
      DoltStatus.modified_tables ⟨true, [], []⟩ = [] ∧
      DoltStatus.added_tables ⟨true, [], []⟩ = []) ∧
    (DoltStatus.is_clean ⟨true, [], []⟩ = true ↔
      chContains (joinLines (List.map String.toList ["nothing to commit, working tree clean"]))
        "clean".toList = true) :=
  status_clean_sentinel ["nothing to commit, working tree clean"] ⟨true, [], []⟩ rfl

/-- C6, counterexample.  A branch listing with two active-marker lines
does not fail: `_get_branches` returns normally, with the *last* starred
line as the active branch — contradicting the claim that more than one
active marker fails with a parse error. -/
theorem branches_two_markers_counterexample :
    getBranches ["* a h1", "* b h2"] =
      Except.ok (⟨"b", "h2"⟩, [⟨"a", "h1"⟩, ⟨"b", "h2"⟩]) := rfl

/-- Helper for C6: the `_get_branches` loop started with no active branch
never acquires one when no line carries the `*` marker. -/
theorem getBranchesLoop_noStar (output : List String)
    (h : ∀ l ∈ output, chStartsWith l.toList ['*'] = false) :
    ∀ branches : List DoltBranch,
      (∃ bs, getBranchesLoop output branches none = .ok (none, bs)) ∨
      (∃ e, getBranchesLoop output branches none = .error e) := by
  induction output with
  | nil => exact fun branches => .inl ⟨branches, rfl⟩
  | cons line rest ih =>
    intro branches
    have hline : chStartsWith line.toList ['*'] = false :=
      h line (List.mem_cons_self _ _)
    have hrest : ∀ l ∈ rest, chStartsWith l.toList ['*'] = false :=
      fun l hl => h l (List.mem_cons_of_mem _ hl)
    unfold getBranchesLoop
    by_cases he : line.toList.isEmpty = true
    · left; exact ⟨branches, by rw [if_pos he]⟩
    · rw [if_neg he, hline]
      simp only [Bool.false_eq_true, if_false]
      cases hsp : chSplitWS (chTrimLeft line.toList) with
      | nil => right; exact ⟨"IndexError", rfl⟩
      | cons b t =>
        cases t with
        | nil => right; exact ⟨"IndexError", rfl⟩
        | cons c t' => exact ih hrest (branches ++ [⟨b.asString, c.asString⟩])

/-- C6, amended.  A branch listing in which no line carries the `*`
active marker fails (with the failed-to-set-active-branch error or an
earlier parse error), but a listing with more than one active marker
parses successfully and reports the last marked line as the active
branch. -/
theorem branches_active_marker :
    (∀ output : List String,
      (∀ l ∈ output, chStartsWith l.toList ['*'] = false) →
      ∃ e, getBranches output = Except.error e) ∧
    getBranches ["* x c1", "* y c2", "* z c3"] =
      Except.ok (⟨"z", "c3"⟩, [⟨"x", "c1"⟩, ⟨"y", "c2"⟩, ⟨"z", "c3"⟩]) := by
  constructor
  · intro output h
    unfold getBranches
    rcases getBranchesLoop_noStar output h [] with ⟨bs, hbs⟩ | ⟨e, he⟩
    · rw [hbs]; exact ⟨"Failed to set active branch", rfl⟩
    · rw [he]; exact ⟨e, rfl⟩
  · rfl

/-- C6, witness for `branches_active_marker`: the zero-marker listing
`["a h1"]` fails. -/
theorem branches_active_marker_witness :
    ∃ e, getBranches ["a h1"] = Except.error e :=
  branches_active_marker.1 ["a h1"] (by decide)

/-- C3, code-bug evaluation.  A validly supplied import mode is ignored:
with `import_mode="replace"` the resolved mode is `create` when the table
is absent from the listing and `update` when present — never `replace`.
The function's own log line (`"No import mode specified"`) fires on this
path, confirming that the valid-supplied case was meant to keep the
supplied mode. -/
theorem import_mode_supplied_mode_ignored :
    getImportModeAndFlags [] "t" (some "replace") = Except.ok "create" ∧
    getImportModeAndFlags ["t"] "t" (some "replace") = Except.ok "update" :=
  ⟨rfl, rfl⟩

/-- Helper for C10: folding the loop body `temp = transformer(data)` over
a nonempty transformer list yields the last transformer applied to
`data`, whatever the initial accumulator. -/
theorem foldl_rebind_last {α : Type} (data : α) (l : List (α → α)) :
    ∀ (t : α → α) (init : α),
      (t :: l).foldl (fun _temp f => f data) init = (t :: l).getLastD id data := by
  induction l with
  | nil => intro t init; rfl
  | cons t' rest ih =>
    intro t init
    show (t' :: rest).foldl (fun _temp f => f data) (t data) = _
    rw [ih t' (t data)]
    simp [List.getLastD_cons]

/-- C10.  For every transformer list of length at least two,
`_apply_df_transformers` returns the result of applying only the *last*
transformer to the original input: each loop iteration rebinds `temp` to
`transformer(data)`, so the transformers are not composed sequentially. -/
theorem apply_df_transformers_last {α : Type} (data : α)
    (ts : List (α → α)) (h : 2 ≤ ts.length) :
    applyDfTransformers data ts = ts.getLastD id data := by
  cases ts with
  | nil => simp at h
  | cons t l =>
    unfold applyDfTransformers
    rw [if_neg (by simp)]
    exact foldl_rebind_last data l t data

/-- C10, witness for `apply_df_transformers_last`: with transformers
`[+1, *2]` on input `3` the result is `6 = (3 * 2)`, the last transformer
applied to the original input (sequential composition would give `8`). -/
theorem apply_df_transformers_last_witness :
    applyDfTransformers (3 : Nat) [fun n => n + 1, fun n => n * 2] = 6 :=
  (apply_df_transformers_last 3 [fun n => n + 1, fun n => n * 2] (by decide)).trans rfl

/-- C9.  On every exit path of `_import_helper` — mode-resolution error,
staging-writer failure before or after the file was created, import
process failure, add/commit failure, or success — the temporary staging
file does not survive the call: the `finally` clause removes it whenever
it exists. -/
theorem import_helper_cleanup (lsNames : List String) (table : String)
    (writer : WriterOutcome) (importMode : Option String)
    (primaryKey : List String) (commit : Bool) (cm cd : Option String)
    (ef af cf : Bool) :
    (importHelper lsNames table writer importMode primaryKey commit cm cd
      ef af cf).fileExists = false := by
  unfold importHelper
  cases hm : getImportModeAndFlags lsNames table importMode with
  | error e => rfl
  | ok mode =>
    cases writer with
    | failNoFile => rfl
    | failWithFile => rfl
    | ok => cases ef <;> cases commit <;> cases af <;> cases cf <;> rfl

/-- C4, counterexample.  A writer call with the table absent (mode
resolved to `create`) and no primary key raises no configuration error:
the import process is spawned (with no `--pk` flag) and the call
succeeds — contradicting the claim that a configuration error is raised
before any import process is spawned. -/
theorem import_helper_no_pk_counterexample :
    (importHelper [] "t" .ok none [] false none none false false false).result =
      Except.ok () ∧
    (importHelper [] "t" .ok none [] false none none false false false).trace =
      [["table", "import", "t", "-c", "staging.csv"]] := ⟨rfl, rfl⟩

/-- C4, amended.  The table-writer path performs no primary-key
validation at all: whenever mode resolution succeeds and the staging
writer completes, the first (and only unconditional) spawned process is
the table-import command itself, built without any `--pk` flag when no
primary key was supplied.  The primary-key check of `Dolt.table_import`
is bypassed because `_import_helper` invokes `dolt.execute` directly. -/
theorem import_helper_spawns_without_pk (lsNames : List String)
    (table : String) (importMode : Option String) (commit : Bool)
    (cm cd : Option String) (ef af cf : Bool) (mode : String)
    (h : getImportModeAndFlags lsNames table importMode = Except.ok mode) :
    (importHelper lsNames table .ok importMode [] commit cm cd ef af cf).trace.head? =
      some (["table", "import", table] ++ importModesToFlags mode ++ [stagingName]) := by
  unfold importHelper
  rw [h]
  cases ef <;> cases commit <;> cases af <;> cases cf <;> simp

/-- C4, witness for `import_helper_spawns_without_pk`: table `t` absent
from an empty listing resolves to `create`, and the spawned import
command carries only the `-c` flag and the staging file. -/
theorem import_helper_spawns_without_pk_witness :
    (importHelper [] "t" .ok none [] true none none false false false).trace.head? =
      some (["table", "import", "t"] ++ importModesToFlags "create" ++ [stagingName]) :=
  import_helper_spawns_without_pk [] "t" none true none none false false false "create" rfl

/-- Helper for C8: `append_merge_parent` never changes the commit's ref. -/
theorem appendMergeParent_ref (c : DoltCommit) (o : Option String)
    (c' : DoltCommit) (h : appendMergeParent c o = .ok c') : c'.ref = c.ref := by
  unfold appendMergeParent at h
  split at h
  · exact Except.noConfusion h
  · injection h with h'; subst h'; rfl
  · split at h
    · injection h with h'; subst h'; rfl
    · injection h with h'; subst h'; rfl

/-- Helper for C8: the one-step unfolding of `firstSeenFrom` on a cons. -/
theorem firstSeenFrom_cons (seen : List String) (x : String) (xs : List String) :
    firstSeenFrom seen (x :: xs) =
      if x ∈ seen then firstSeenFrom seen xs
      else x :: firstSeenFrom (x :: seen) xs := rfl

/-- Helper for C8: `firstSeenFrom` only depends on the membership of the
seen list. -/
theorem firstSeenFrom_congr (l : List String) :
    ∀ seen₁ seen₂ : List String, (∀ x, x ∈ seen₁ ↔ x ∈ seen₂) →
      firstSeenFrom seen₁ l = firstSeenFrom seen₂ l := by
  induction l with
  | nil => intro _ _ _; rfl
  | cons x xs ih =>
    intro s1 s2 hs
    rw [firstSeenFrom_cons, firstSeenFrom_cons]
    by_cases hx : x ∈ s1
    · rw [if_pos hx, if_pos ((hs x).mp hx)]
      exact ih s1 s2 hs
    · rw [if_neg hx, if_neg (fun hmem => hx ((hs x).mpr hmem))]
      exact congrArg (x :: ·) (ih (x :: s1) (x :: s2) (fun y => by simp [hs y]))

/-- Helper for C8: the refs of the folded records are the accumulator's
refs followed by the first-seen-deduplicated commit hashes of the rows —
a repeated hash updates the existing record in place and never appends. -/
theorem parseDoltLogTableGo_refs (rows : List LogRow) :
    ∀ (acc cs : List DoltCommit), parseDoltLogTableGo rows acc = .ok cs →
      cs.map DoltCommit.ref =
        acc.map DoltCommit.ref ++
          firstSeenFrom (acc.map DoltCommit.ref) (rows.map LogRow.commit_hash) := by
  induction rows with
  | nil =>
    intro acc cs h
    unfold parseDoltLogTableGo at h
    injection h with h'
    subst h'
    simp [firstSeenFrom]
  | cons r rest ih =>
    intro acc cs h
    unfold parseDoltLogTableGo at h
    split at h
    case h_1 c hf =>
      split at h
      case h_1 e ha => exact Except.noConfusion h
      case h_2 c' ha =>
        have hcref : c.ref = r.commit_hash := by
          have := List.find?_some hf
          simpa using this
        have hc'ref : c'.ref = c.ref := appendMergeParent_ref c r.parent_hash c' ha
        have hmapeq :
            (acc.map (fun x => if x.ref = r.commit_hash then c' else x)).map
              DoltCommit.ref = acc.map DoltCommit.ref := by
          rw [List.map_map]
          apply List.map_congr_left
          intro x _
          by_cases hxr : x.ref = r.commit_hash
          · simp only [Function.comp_apply, if_pos hxr]
            rw [hc'ref, hcref, hxr]
          · simp only [Function.comp_apply, if_neg hxr]
        have hmem : r.commit_hash ∈ acc.map DoltCommit.ref :=
          List.mem_map.mpr ⟨c, List.mem_of_find?_eq_some hf, hcref⟩
        have hrec := ih _ cs h
        rw [hrec, hmapeq]
        have hskip :
            firstSeenFrom (acc.map DoltCommit.ref)
                ((r :: rest).map LogRow.commit_hash) =
              firstSeenFrom (acc.map DoltCommit.ref)
                (rest.map LogRow.commit_hash) := by
          rw [List.map_cons, firstSeenFrom_cons, if_pos hmem]
        rw [hskip]
    case h_2 hf =>
      have hrec := ih (acc ++ [mkLogCommit r]) cs h
      have hnot : r.commit_hash ∉ acc.map DoltCommit.ref := by
        intro hmem
        rcases List.mem_map.mp hmem with ⟨x, hx, hxr⟩
        have hnone := List.find?_eq_none.mp hf x hx
        simp [hxr] at hnone
      have hm : (acc ++ [mkLogCommit r]).map DoltCommit.ref =
          acc.map DoltCommit.ref ++ [r.commit_hash] := by
        simp [mkLogCommit]
      rw [hrec, hm, List.append_assoc]
      have hfresh :
          firstSeenFrom (acc.map DoltCommit.ref)
              ((r :: rest).map LogRow.commit_hash) =
            r.commit_hash ::
              firstSeenFrom (r.commit_hash :: acc.map DoltCommit.ref)
                (rest.map LogRow.commit_hash) := by
        rw [List.map_cons, firstSeenFrom_cons, if_neg hnot]
      rw [hfresh]
      simp only [List.singleton_append]
      exact congrArg (fun z => acc.map DoltCommit.ref ++ r.commit_hash :: z)
        (firstSeenFrom_congr (rest.map LogRow.commit_hash) _ _
          (fun x => by simp [List.mem_append, List.mem_cons, or_comm]))

/-- C8.  `parse_dolt_log_table` folds the flat (commit, parent) edge list
into per-commit records: the refs of the result are the commit hashes in
first-seen order with duplicates removed (a repeated hash extends the
existing record instead of creating a new one), and on the concrete edge
sequence (C2,C1), (C3,C1), (C3,C2) the record for C3 is a single record
whose parent is the merge pair (C1, C2). -/
theorem log_fold_merge_parents :
    (∀ (rows : List LogRow) (cs : List DoltCommit),
      parseDoltLogTable rows = Except.ok cs →
      cs.map DoltCommit.ref = firstSeenFrom [] (rows.map LogRow.commit_hash)) ∧
    parseDoltLogTable
        [⟨"C2", some "C1", "auth", "em", "t1", "m1"⟩,
         ⟨"C3", some "C1", "auth", "em", "t2", "m2"⟩,
         ⟨"C3", some "C2", "auth", "em", "t3", "m3"⟩] =
      Except.ok
        [⟨"C2", "t1", "auth", "em", "m1", Parents.single "C1"⟩,
         ⟨"C3", "t2", "auth", "em", "m2", Parents.pair "C1" (some "C2")⟩] := by
  constructor
  · intro rows cs h
    unfold parseDoltLogTable at h
    have := parseDoltLogTableGo_refs rows [] cs h
    simpa using this
  · rfl

/-- C8, witness for `log_fold_merge_parents`, discharging its
quantified part on the concrete edge sequence of its second part. -/
theorem log_fold_merge_parents_witness :
    List.map DoltCommit.ref
        [⟨"C2", "t1", "auth", "em", "m1", Parents.single "C1"⟩,
         ⟨"C3", "t2", "auth", "em", "m2", Parents.pair "C1" (some "C2")⟩] =
      firstSeenFrom []
        (List.map LogRow.commit_hash
          [⟨"C2", some "C1", "auth", "em", "t1", "m1"⟩,
           ⟨"C3", some "C1", "auth", "em", "t2", "m2"⟩,
           ⟨"C3", some "C2", "auth", "em", "t3", "m3"⟩]) :=
  log_fold_merge_parents.1 _ _ log_fold_merge_parents.2

/-- C2, counterexample.  A merge whose command output *contains* a
`CONFLICT` marker but spans 4 lines (marker at index 1) is not recognized
as a conflict: no merge-abort is issued and the three-way-merge path runs
to a commit — contradicting the claim that any output containing a
CONFLICT marker leads to abort-without-commit regardless of line count
and marker position. -/
theorem merge_conflict_marker_counterexample :
    merge mergeConflictMidEnv "feature" "m" false =
      ([branchListArgs, statusArgs, mergeCmdArgs false "feature", statusArgs,
        addCmdArgs "t", statusArgs, commitCmdArgs "m"], Except.ok ()) ∧
    mergeAbortArgs ∉ (merge mergeConflictMidEnv "feature" "m" false).1 := by
  exact ⟨rfl, by decide⟩

/-- C2, amended.  Only a merge output of *exactly five* lines whose
*third* line starts with `CONFLICT` is treated as a conflict; for every
such output, merge issues the merge-abort command, returns normally, and
spawns no commit: the full process trace is branch-list, status, merge,
merge-abort. -/
theorem merge_conflict_exact_shape (env : MergeEnv) (branch message : String)
    (squash : Bool) (hclean : env.statusBefore.is_clean = true)
    (hbr : branch ∈ env.branches.map (fun b => b.name))
    (hlen : env.mergeOutput.length = 5)
    (hconf : chStartsWith (env.mergeOutput.getD 2 "").toList "CONFLICT".toList = true) :
    merge env branch message squash =
      ([branchListArgs, statusArgs, mergeCmdArgs squash branch, mergeAbortArgs],
        Except.ok ()) := by
  simp only [merge]
  rw [if_neg (by simp [hclean])]
  rw [if_neg (by simp [hbr])]
  rw [if_neg (by simp [hlen])]
  rw [if_pos ⟨hlen, hconf⟩]
  rfl

/-- C2, witness for `merge_conflict_exact_shape` on a clean repository
with an existing target branch and a 5-line conflict output. -/
theorem merge_conflict_exact_shape_witness :
    merge
        ⟨⟨"master", "h0"⟩, [⟨"master", "h0"⟩, ⟨"feature", "h1"⟩], ⟨true, [], []⟩,
          ["l0", "l1", "CONFLICT (content): merge conflict in t", "l3", "l4"],
          ⟨true, [], []⟩⟩
        "feature" "msg" false =
      ([branchListArgs, statusArgs, mergeCmdArgs false "feature", mergeAbortArgs],
        Except.ok ()) :=
  merge_conflict_exact_shape _ "feature" "msg" false rfl (by decide) rfl rfl

/-- C5, counterexample.  A merge invoked on a dirty working set does
raise the precondition error, but only *after* two external processes
(branch listing and status) have been spawned — contradicting the claim
that the error precedes any process invocation, with no process
spawned. -/
theorem merge_precondition_spawns_counterexample :
    merge dirtyMergeEnv "feature" "m" false =
      ([branchListArgs, statusArgs],
        Except.error
          "Changes in the working set, please commit before merging feature to master") ∧
    ([branchListArgs, statusArgs] : List (List String)) ≠ [] := by
  exact ⟨rfl, by decide⟩

/-- C5, amended.  The mutual-exclusion errors of `schema_import`,
`table_import` and `branch` are raised before any process is spawned
(empty trace); merge's precondition failures (dirty working set, missing
target branch) are raised before the *merge* process is invoked but after
the read-only branch-listing and status processes have been spawned — the
trace is exactly those two commands. -/
theorem precondition_flag_errors :
    (∀ (create update replace dr kt : Bool) (ft : Option String)
       (pks : List String) (mf fth dl : Option String) (t f : String),
       2 ≤ [create, update, replace].count true →
       schemaImport create update replace dr kt ft pks mf fth dl t f =
         ([], Except.error "Exactly one of create, update, replace must be True")) ∧
    (∀ (ct ut force : Bool) (mf : Option String) (pk : List String)
       (rt : Bool) (ft : Option String) (ci : Bool) (dl : Option String)
       (t f : String),
       2 ≤ [ct, ut, rt].count true →
       tableImport ct ut force mf pk rt ft ci dl t f =
         ([], Except.error "Exactly one of create, update, replace must be True")) ∧
    (∀ (bn sp nb : Option String) (force delete copy move : Bool),
       2 ≤ [delete, copy, move].count true →
       branchCmd bn sp nb force delete copy move =
         ([], Except.error "At most one of delete, copy, move can be set to True")) ∧
    (∀ (env : MergeEnv) (branch message : String) (squash : Bool),
       (env.statusBefore.is_clean = false ∨
         branch ∉ env.branches.map (fun b => b.name)) →
       (merge env branch message squash).1 = [branchListArgs, statusArgs] ∧
       ∃ e, (merge env branch message squash).2 = Except.error e) := by
  refine ⟨?_, ?_, ?_, ?_⟩
  · intro c u r dr kt ft pks mf fth dl t f h
    have hne : [c, u, r].count true ≠ 1 := by omega
    simp only [schemaImport]
    rw [if_pos hne]
  · intro ct ut force mf pk rt ft ci dl t f h
    have hne : [ct, ut, rt].count true ≠ 1 := by omega
    simp only [tableImport]
    rw [if_pos hne]
  · intro bn sp nb force delete copy move h
    have hgt : [delete, copy, move].count true > 1 := by omega
    simp only [branchCmd]
    rw [if_pos hgt]
  · intro env branch message squash h
    simp only [merge]
    rcases h with hdirty | hmissing
    · rw [if_pos hdirty]
      exact ⟨rfl, ⟨_, rfl⟩⟩
    · by_cases hclean : env.statusBefore.is_clean = false
      · rw [if_pos hclean]
        exact ⟨rfl, ⟨_, rfl⟩⟩
      · rw [if_neg hclean, if_pos hmissing]
        exact ⟨rfl, ⟨_, rfl⟩⟩

/-- C5, witness for `precondition_flag_errors`: two mode flags set on
each of the three commands, and a merge on a dirty working set. -/
theorem precondition_flag_errors_witness :
    schemaImport true true false false false none ["id"] none none none "t" "f.csv" =
      ([], Except.error "Exactly one of create, update, replace must be True") ∧
    tableImport true true false none ["id"] false none false none "t" "f.csv" =
      ([], Except.error "Exactly one of create, update, replace must be True") ∧
    branchCmd none none none false true true false =
      ([], Except.error "At most one of delete, copy, move can be set to True") ∧
    ((merge ⟨⟨"master", "h0"⟩, [⟨"master", "h0"⟩], ⟨false, [("t", false)], []⟩,
        [], ⟨true, [], []⟩⟩ "feature" "m" false).1 = [branchListArgs, statusArgs] ∧
      ∃ e, (merge ⟨⟨"master", "h0"⟩, [⟨"master", "h0"⟩], ⟨false, [("t", false)], []⟩,
        [], ⟨true, [], []⟩⟩ "feature" "m" false).2 = Except.error e) :=
  ⟨precondition_flag_errors.1 true true false false false none ["id"] none none
      none "t" "f.csv" (by decide),
    precondition_flag_errors.2.1 true true false none ["id"] false none false
      none "t" "f.csv" (by decide),
    precondition_flag_errors.2.2.1 none none none false true true false (by decide),
    precondition_flag_errors.2.2.2
      ⟨⟨"master", "h0"⟩, [⟨"master", "h0"⟩], ⟨false, [("t", false)], []⟩,
        [], ⟨true, [], []⟩⟩ "feature" "m" false (Or.inl rfl)⟩

/-- Helper for C1: the restoration step always lands on the original
branch. -/
theorem restoreBranch_active (original : String) (st : LoaderState) :
    (restoreBranch original st).active = original := by
  unfold restoreBranch
  by_cases h : original ≠ st.active
  · rw [if_pos h]
  · rw [if_neg h]
    push_neg at h
    exact h.symm

/-- Helper for C1: every run of the loader either raises, or returns
normally with the original branch restored as the active branch. -/
theorem getDoltLoaderInner_cases (writers : List LoaderWriter) (commit : Bool)
    (message branch : String) (txn : Bool) (st : LoaderState) :
    (∃ e, (getDoltLoaderInner writers commit message branch txn st).2 =
        Except.error e) ∨
    ((getDoltLoaderInner writers commit message branch txn st).1.active =
        st.active ∧
      (getDoltLoaderInner writers commit message branch txn st).2 =
        Except.ok branch) := by
  simp only [getDoltLoaderInner]
  by_cases h1 : branch ≠ st.active ∧ commit = false
  · rw [if_pos h1]; left; exact ⟨_, rfl⟩
  · rw [if_neg h1]
    cases txn with
    | true => left; exact ⟨_, rfl⟩
    | false =>
      simp only [Bool.false_eq_true, if_false]
      rcases hw : runWriters writers (checkoutStep branch st) with ⟨st2, r2⟩
      cases r2 with
      | error e => left; exact ⟨e, rfl⟩
      | ok tables =>
        dsimp only
        rcases hc : commitStep commit st2 with ⟨st3, r3⟩
        cases r3 with
        | error e => left; exact ⟨e, rfl⟩
        | ok _ => right; exact ⟨restoreBranch_active st.active st3, rfl⟩

/-- C1, counterexample.  A loader invocation with `commit=True`, target
branch `feature` from `master`, whose single writer raises: the exception
propagates and the active branch is left at `feature`, not restored to
`master` — contradicting the claim that restoration happens regardless of
whether the writers raised. -/
theorem loader_writer_failure_counterexample :
    loaderWriterFailRun.1.active = "feature" ∧
    loaderWriterFailRun.1.active ≠ "master" ∧
    loaderWriterFailRun.2 = Except.error "writer raised" := by
  exact ⟨rfl, by decide, rfl⟩

/-- C1, amended.  Restoration of the originally active branch is
guaranteed only on invocations that complete normally: whenever the
loader returns (rather than raises), the active branch afterwards equals
the originally active branch, regardless of what the writers did and
whether a commit was produced.  On a raising path no restoration is
performed. -/
theorem loader_restores_on_normal_return (writers : List LoaderWriter)
    (commit : Bool) (message branch : String) (txn : Bool) (st : LoaderState)
    (res : String)
    (h : (getDoltLoaderInner writers commit message branch txn st).2 =
      Except.ok res) :
    (getDoltLoaderInner writers commit message branch txn st).1.active =
      st.active := by
  rcases getDoltLoaderInner_cases writers commit message branch txn st with
    ⟨e, he⟩ | ⟨ha, _⟩
  · rw [he] at h; exact Except.noConfusion h
  · exact ha

/-- C1, witness for `loader_restores_on_normal_return`: a loader with no
writers and no commit on the already-active branch returns normally and
the active branch is unchanged. -/
theorem loader_restores_on_normal_return_witness :
    (getDoltLoaderInner [] false "msg" "master" false
        ⟨["master"], "master", true, false, 0⟩).1.active = "master" :=
  loader_restores_on_normal_return [] false "msg" "master" false
    ⟨["master"], "master", true, false, 0⟩ "master" rfl

end Doltpy
